import Mathlib

/-!
Shallow embedding of the image sanitization/compression pipeline of this
repository (the compressing `removeExifData` / `removeExifDataFromFiles`
pair, and the legacy single-encode `removeExifData` of
`src/app/lib/image-utils.ts`).

Modelling conventions:
* JavaScript numbers used for dimensions and quality are modelled as exact
  rationals (`ℚ`); blob byte sizes are naturals.
* The browser environment (FileReader success, image decode success,
  canvas-2d-context availability, and the `canvas.toBlob` encoder) is an
  oracle record `Env`.  `Env.enc w h q` is the byte size of the blob the
  encoder produces for a canvas of size `w × h` at encoder quality `q`
  (`none` models a `null` blob).
* The recursive `compressImage` search is embedded with an explicit fuel
  parameter (`compressImageF`); one unit of fuel corresponds to one
  encoding attempt.  The total function `compressImage` runs the fueled
  search at the computable fuel bound `compressMeasure`, which is proved
  sufficient below (`compressImageF_isSome`).
* A `File`/`Blob` pair is modelled as `JSFile`: `type` is the MIME type
  declared on the `File` object, `bytesType` the MIME type requested from
  `canvas.toBlob` (the format of the encoded bytes).
-/

/-- The error kinds of the pipeline: "Failed to read file",
"Failed to load image", "Canvas context not available",
"Failed to create blob". -/
inductive SanitizeError where
  | readError
  | decodeError
  | surfaceError
  | encodeError
deriving DecidableEq

/-- One encoding attempt: the canvas dimensions and encoder quality used,
and the byte size of the blob produced. -/
structure Attempt where
  width : ℚ
  height : ℚ
  quality : ℚ
  size : ℕ
deriving DecidableEq

/-- Model of a JavaScript `File`: name, declared MIME type, the MIME type
of the encoded bytes, and byte size. -/
structure JSFile where
  name : String
  type : String
  bytesType : String
  size : ℕ
deriving DecidableEq

/-- Model of an input image file: name, declared MIME type, and the pixel
dimensions obtained by decoding it (`img.width`, `img.height`). -/
structure InputImage where
  name : String
  type : String
  width : ℕ
  height : ℕ
deriving DecidableEq

/-- The browser-environment oracle for one `removeExifData` invocation. -/
structure Env where
  readOk : Bool
  decodeOk : Bool
  ctxOk : Bool
  enc : ℚ → ℚ → ℚ → Option ℕ

/-- Lines 82-90 of the compressing variant: the dimension-shrink step.
`newWidth = min(targetWidth * 0.8, 800)`, `newHeight = newWidth / aspect`,
then if `newHeight > 800` the height is clamped to `800` and the width
recomputed as `800 * aspect`. -/
def shrinkDims (targetWidth targetHeight : ℚ) : ℚ × ℚ :=
  let aspect := targetWidth / targetHeight
  let newWidth := min (targetWidth * 0.8) 800
  let newHeight := newWidth / aspect
  if newHeight > 800 then (800 * aspect, 800) else (newWidth, newHeight)

/-- Number of quality decrements (`- 0.1` steps) until the `quality > 0.3`
guard fails; used only for the fuel bound of the search. -/
def qSteps (q : ℚ) : ℕ := (⌈(q - 0.3) * 10⌉).toNat

/-- Fuel bound for the quality/dimension search started at state
`(w, h, q)`: enough for all quality decrements, one dimension shrink, and
the quality decrements after it. -/
def compressMeasure (w h q : ℚ) : ℕ :=
  qSteps q + (if w > 800 ∨ h > 800 then 5 else 0) + 1

/-- Fueled embedding of the recursive `compressImage` closure
(lines 39-112 of the compressing variant).  Each fuel unit is one
encoding attempt.  Branches, in source order: missing 2d context rejects,
a `null` blob rejects, `blob.size <= maxSize` accepts, `quality > 0.3`
retries at `quality - 0.1`, dimensions above 800 shrink and retry at
quality `0.7`, otherwise the current (over-budget) attempt is accepted. -/
def compressImageF (ctxOk : Bool) (enc : ℚ → ℚ → ℚ → Option ℕ) (maxSize : ℕ) :
    ℕ → ℚ → ℚ → ℚ → Option (Except SanitizeError Attempt)
  | 0, _, _, _ => none
  | fuel + 1, targetWidth, targetHeight, quality =>
    if ctxOk = false then some (Except.error SanitizeError.surfaceError)
    else
      match enc targetWidth targetHeight quality with
      | none => some (Except.error SanitizeError.encodeError)
      | some size =>
        if size ≤ maxSize then
          some (Except.ok ⟨targetWidth, targetHeight, quality, size⟩)
        else if quality > 0.3 then
          compressImageF ctxOk enc maxSize fuel targetWidth targetHeight (quality - 0.1)
        else if targetWidth > 800 ∨ targetHeight > 800 then
          compressImageF ctxOk enc maxSize fuel
            (shrinkDims targetWidth targetHeight).1 (shrinkDims targetWidth targetHeight).2 0.7
        else
          some (Except.ok ⟨targetWidth, targetHeight, quality, size⟩)

/-- The total compression search: the fueled search run at the fuel bound
`compressMeasure` (proved sufficient in `compressImageF_isSome`, so the
default is never taken). -/
def compressImage (ctxOk : Bool) (enc : ℚ → ℚ → ℚ → Option ℕ) (maxSize : ℕ)
    (w h q : ℚ) : Except SanitizeError Attempt :=
  (compressImageF ctxOk enc maxSize (compressMeasure w h q) w h q).getD
    (Except.error SanitizeError.encodeError)

/-- Lines 114-128 of the compressing variant: the initial target
dimensions.  If either side exceeds `maxDimension` the image is scaled,
preserving aspect ratio, so the longer side equals `maxDimension`. -/
def initialDims (maxDimension w h : ℚ) : ℚ × ℚ :=
  if w > maxDimension ∨ h > maxDimension then
    let aspect := w / h
    if w > h then (maxDimension, maxDimension / aspect)
    else (maxDimension * aspect, maxDimension)
  else (w, h)

/-- Wrapping an accepted attempt's blob as a new `File` (lines 68-75 /
97-104): original file name, the fixed `image/jpeg` MIME type (also the
format the blob was encoded in). -/
def mkFile (fileName : String) (a : Attempt) : JSFile :=
  { name := fileName, type := "image/jpeg", bytesType := "image/jpeg", size := a.size }

/-- The compressing `removeExifData` (lines 20-160 of
`src/unnamed/part_000`): read the file, decode it, compute initial target
dimensions, then run the compression search starting at quality `0.92`. -/
def removeExifData (env : Env) (file : InputImage)
    (maxSize : ℕ := 4 * 1024 * 1024) (maxDimension : ℚ := 1920) :
    Except SanitizeError JSFile :=
  if env.readOk = false then Except.error SanitizeError.readError
  else if env.decodeOk = false then Except.error SanitizeError.decodeError
  else
    Except.map (mkFile file.name)
      (compressImage env.ctxOk env.enc maxSize
        (initialDims maxDimension (file.width : ℚ) (file.height : ℚ)).1
        (initialDims maxDimension (file.width : ℚ) (file.height : ℚ)).2 0.92)

/-- Order-respecting fail-fast traversal: the model of
`Promise.all(files.map(...))` for deterministic per-item results. -/
def exceptMap (f : α → Except ε β) : List α → Except ε (List β)
  | [] => Except.ok []
  | a :: l =>
    match f a with
    | Except.error e => Except.error e
    | Except.ok b =>
      match exceptMap f l with
      | Except.error e => Except.error e
      | Except.ok bs => Except.ok (b :: bs)

/-- The batch variant `removeExifDataFromFiles` (lines 169-175):
each file is processed independently with the same `maxSize` and
`maxDimension`; one rejection rejects the whole batch. -/
def removeExifDataFromFiles (env : Env) (files : List InputImage)
    (maxSize : ℕ := 4 * 1024 * 1024) (maxDimension : ℚ := 1920) :
    Except SanitizeError (List JSFile) :=
  exceptMap (fun file => removeExifData env file maxSize maxDimension) files

/-- JavaScript `string.split(".")` on the character list of a string:
always returns at least one (possibly empty) segment, and empty segments
between consecutive dots. -/
def splitDot : List Char → List (List Char)
  | [] => [[]]
  | c :: cs =>
    match splitDot cs with
    | [] => [[]]
    | seg :: segs => if c = '.' then [] :: seg :: segs else (c :: seg) :: segs

/-- Line 49 of `src/app/lib/image-utils.ts`,
`fileName.split(".").pop()?.toLowerCase() || "jpg"`: the last
dot-separated segment of the file name, lower-cased, defaulting to
`"jpg"` when empty. -/
def legacyFileExtension (fileName : String) : String :=
  let fileExtension := String.mk (((splitDot fileName.data).getLastD []).map Char.toLower)
  if fileExtension = "" then "jpg" else fileExtension

/-- Lines 51-57 of `src/app/lib/image-utils.ts`: the declared MIME type of
the legacy variant's output `File`, chosen from the file extension. -/
def legacyMimeType (fileName : String) : String :=
  if legacyFileExtension fileName = "png" then "image/png"
  else if legacyFileExtension fileName = "gif" then "image/gif"
  else "image/jpeg"

/-- Line 71 of `src/app/lib/image-utils.ts`: the format requested from
`canvas.toBlob`, chosen from the input's declared MIME type:
`file.type.startsWith("image/png") ? "image/png" : "image/jpeg"`. -/
def legacyEncodeType (fileType : String) : String :=
  if List.isPrefixOf "image/png".data fileType.data then "image/png" else "image/jpeg"

instance {ε α : Type} [DecidableEq ε] [DecidableEq α] : DecidableEq (Except ε α) := fun x y =>
  match x, y with
  | Except.error a, Except.error b =>
    if h : a = b then isTrue (by rw [h]) else isFalse (fun he => h (by injection he))
  | Except.ok a, Except.ok b =>
    if h : a = b then isTrue (by rw [h]) else isFalse (fun he => h (by injection he))
  | Except.error _, Except.ok _ => isFalse (fun he => by injection he)
  | Except.ok _, Except.error _ => isFalse (fun he => by injection he)

/-- Browser-environment oracle for the legacy variant: its single encode
is determined by the requested format and quality (canvas dimensions are
the unscaled image dimensions). -/
structure LegacyEnv where
  readOk : Bool
  decodeOk : Bool
  ctxOk : Bool
  enc : String → ℚ → Option ℕ

/-- The legacy `removeExifData` of `src/app/lib/image-utils.ts`: one
re-encode at the original dimensions; declared output type from the file
extension, encoded-bytes format from the declared input type. -/
def removeExifDataLegacy (env : LegacyEnv) (file : InputImage)
    (quality : ℚ := 0.92) : Except SanitizeError JSFile :=
  if env.readOk = false then Except.error SanitizeError.readError
  else if env.decodeOk = false then Except.error SanitizeError.decodeError
  else if env.ctxOk = false then Except.error SanitizeError.surfaceError
  else
    match env.enc (legacyEncodeType file.type) quality with
    | none => Except.error SanitizeError.encodeError
    | some size =>
      Except.ok ⟨file.name, legacyMimeType file.name, legacyEncodeType file.type, size⟩

theorem qSteps_of_le {q : ℚ} (hq : q ≤ 0.3) : qSteps q = 0 := by
  unfold qSteps
  have h1 : (q - 0.3) * 10 ≤ ((0 : ℤ) : ℚ) := by push_cast; nlinarith
  have h2 : ⌈(q - 0.3) * 10⌉ ≤ 0 := Int.ceil_le.mpr h1
  omega

theorem qSteps_step {q : ℚ} (hq : 0.3 < q) : qSteps (q - 0.1) + 1 = qSteps q := by
  unfold qSteps
  have key : (q - 0.1 - 0.3) * 10 = (q - 0.3) * 10 - ((1 : ℤ) : ℚ) := by push_cast; ring
  have hpos : 0 < ⌈(q - 0.3) * 10⌉ := Int.ceil_pos.mpr (by nlinarith)
  rw [key, Int.ceil_sub_int]
  omega

theorem qSteps_init : qSteps 0.7 = 4 := by
  unfold qSteps
  have h : ((0.7 : ℚ) - 0.3) * 10 = ((4 : ℤ) : ℚ) := by norm_num
  rw [h, Int.ceil_intCast]
  rfl

theorem shrinkDims_le (w h : ℚ) : (shrinkDims w h).1 ≤ 800 ∧ (shrinkDims w h).2 ≤ 800 := by
  simp only [shrinkDims]
  by_cases hcl : min (w * 0.8) 800 / (w / h) > 800
  · rw [if_pos hcl]
    refine ⟨?_, le_refl _⟩
    rcases lt_trichotomy (w / h) 0 with hneg | hzero | hpos
    · nlinarith
    · rw [hzero, div_zero] at hcl; norm_num at hcl
    · have h1 : 800 * (w / h) < min (w * 0.8) 800 := (lt_div_iff₀ hpos).mp hcl
      have h2 : min (w * 0.8) 800 ≤ 800 := min_le_right _ _
      linarith
  · rw [if_neg hcl]
    exact ⟨min_le_right _ _, le_of_not_lt hcl⟩

theorem compressF_surface (e : ℚ → ℚ → ℚ → Option ℕ) (m fuel : ℕ) (w h q : ℚ) :
    compressImageF false e m (fuel + 1) w h q = some (Except.error SanitizeError.surfaceError) := by
  simp [compressImageF]

theorem compressF_encNone (e : ℚ → ℚ → ℚ → Option ℕ) (m fuel : ℕ) (w h q : ℚ)
    (he : e w h q = none) :
    compressImageF true e m (fuel + 1) w h q = some (Except.error SanitizeError.encodeError) := by
  simp [compressImageF, he]

theorem compressF_accept (e : ℚ → ℚ → ℚ → Option ℕ) (m fuel : ℕ) (w h q : ℚ) (s : ℕ)
    (he : e w h q = some s) (hs : s ≤ m) :
    compressImageF true e m (fuel + 1) w h q = some (Except.ok ⟨w, h, q, s⟩) := by
  simp [compressImageF, he, hs]

theorem compressF_quality (e : ℚ → ℚ → ℚ → Option ℕ) (m fuel : ℕ) (w h q : ℚ) (s : ℕ)
    (he : e w h q = some s) (hs : ¬ s ≤ m) (hq : 0.3 < q) :
    compressImageF true e m (fuel + 1) w h q = compressImageF true e m fuel w h (q - 0.1) := by
  simp [compressImageF, he, hs, hq]

theorem compressF_shrink (e : ℚ → ℚ → ℚ → Option ℕ) (m fuel : ℕ) (w h q : ℚ) (s : ℕ)
    (he : e w h q = some s) (hs : ¬ s ≤ m) (hq : ¬ 0.3 < q) (hd : 800 < w ∨ 800 < h) :
    compressImageF true e m (fuel + 1) w h q =
      compressImageF true e m fuel (shrinkDims w h).1 (shrinkDims w h).2 0.7 := by
  simp [compressImageF, he, hs, hq, hd]

theorem compressF_floor (e : ℚ → ℚ → ℚ → Option ℕ) (m fuel : ℕ) (w h q : ℚ) (s : ℕ)
    (he : e w h q = some s) (hs : ¬ s ≤ m) (hq : ¬ 0.3 < q) (hd : ¬ (800 < w ∨ 800 < h)) :
    compressImageF true e m (fuel + 1) w h q = some (Except.ok ⟨w, h, q, s⟩) := by
  simp [compressImageF, he, hs, hq, hd]

theorem compressImageF_isSome (c : Bool) (e : ℚ → ℚ → ℚ → Option ℕ) (m : ℕ) :
    ∀ (fuel : ℕ) (w h q : ℚ), compressMeasure w h q ≤ fuel →
      (compressImageF c e m fuel w h q).isSome = true := by
  intro fuel
  induction fuel with
  | zero =>
    intro w h q hm
    exfalso
    unfold compressMeasure at hm
    omega
  | succ fuel ih =>
    intro w h q hm
    cases c with
    | false => rw [compressF_surface]; rfl
    | true =>
      cases he : e w h q with
      | none => rw [compressF_encNone e m fuel w h q he]; rfl
      | some s =>
        by_cases hs : s ≤ m
        · rw [compressF_accept e m fuel w h q s he hs]; rfl
        · by_cases hq : 0.3 < q
          · rw [compressF_quality e m fuel w h q s he hs hq]
            apply ih
            have := qSteps_step hq
            unfold compressMeasure at hm ⊢
            omega
          · by_cases hd : 800 < w ∨ 800 < h
            · rw [compressF_shrink e m fuel w h q s he hs hq hd]
              apply ih
              have h1 := shrinkDims_le w h
              have h2 : ¬ ((shrinkDims w h).1 > 800 ∨ (shrinkDims w h).2 > 800) := by
                push_neg
                exact h1
              have h3 : qSteps q = 0 := qSteps_of_le (le_of_not_lt hq)
              have h4 : qSteps (0.7 : ℚ) = 4 := qSteps_init
              unfold compressMeasure at hm ⊢
              rw [if_neg h2, h4]
              rw [if_pos (by exact hd), h3] at hm
              omega
            · rw [compressF_floor e m fuel w h q s he hs hq hd]; rfl

theorem compressImageF_mono (c : Bool) (e : ℚ → ℚ → ℚ → Option ℕ) (m : ℕ) :
    ∀ (fuel₁ fuel₂ : ℕ) (w h q : ℚ) (r : Except SanitizeError Attempt), fuel₁ ≤ fuel₂ →
      compressImageF c e m fuel₁ w h q = some r → compressImageF c e m fuel₂ w h q = some r := by
  intro fuel₁
  induction fuel₁ with
  | zero =>
    intro fuel₂ w h q r _ hF
    simp [compressImageF] at hF
  | succ fuel ih =>
    intro fuel₂ w h q r hle hF
    obtain ⟨fuel₂', rfl⟩ : ∃ k, fuel₂ = k + 1 := ⟨fuel₂ - 1, by omega⟩
    cases c with
    | false => rw [compressF_surface] at hF ⊢; exact hF
    | true =>
      cases he : e w h q with
      | none => rw [compressF_encNone e m fuel w h q he] at hF
                rw [compressF_encNone e m fuel₂' w h q he]
                exact hF
      | some s =>
        by_cases hs : s ≤ m
        · rw [compressF_accept e m fuel w h q s he hs] at hF
          rw [compressF_accept e m fuel₂' w h q s he hs]
          exact hF
        · by_cases hq : 0.3 < q
          · rw [compressF_quality e m fuel w h q s he hs hq] at hF
            rw [compressF_quality e m fuel₂' w h q s he hs hq]
            exact ih fuel₂' w h (q - 0.1) r (by omega) hF
          · by_cases hd : 800 < w ∨ 800 < h
            · rw [compressF_shrink e m fuel w h q s he hs hq hd] at hF
              rw [compressF_shrink e m fuel₂' w h q s he hs hq hd]
              exact ih fuel₂' _ _ _ r (by omega) hF
            · rw [compressF_floor e m fuel w h q s he hs hq hd] at hF
              rw [compressF_floor e m fuel₂' w h q s he hs hq hd]
              exact hF

theorem compressImageF_measure (c : Bool) (e : ℚ → ℚ → ℚ → Option ℕ) (m : ℕ) (w h q : ℚ) :
    compressImageF c e m (compressMeasure w h q) w h q = some (compressImage c e m w h q) := by
  rcases Option.isSome_iff_exists.mp (compressImageF_isSome c e m (compressMeasure w h q) w h q le_rfl)
    with ⟨r, hr⟩
  rw [hr]
  unfold compressImage
  rw [hr]
  rfl

theorem compressImage_eq_of_F (c : Bool) (e : ℚ → ℚ → ℚ → Option ℕ) (m fuel : ℕ) (w h q : ℚ)
    (r : Except SanitizeError Attempt) (hF : compressImageF c e m fuel w h q = some r) :
    compressImage c e m w h q = r := by
  rcases le_total fuel (compressMeasure w h q) with hle | hle
  · have h2 := compressImageF_mono c e m fuel (compressMeasure w h q) w h q r hle hF
    rw [compressImageF_measure] at h2
    exact Option.some.inj h2
  · have h2 := compressImageF_mono c e m (compressMeasure w h q) fuel w h q
      (compressImage c e m w h q) hle (compressImageF_measure c e m w h q)
    rw [hF] at h2
    exact (Option.some.inj h2).symm

theorem shrinkDims_spec {w h : ℚ} (hw : 0 < w) (hh : 0 < h) :
    0 < (shrinkDims w h).1 ∧ 0 < (shrinkDims w h).2 ∧
      (shrinkDims w h).1 ≤ w ∧ (shrinkDims w h).2 ≤ h ∧
      (shrinkDims w h).1 * h = (shrinkDims w h).2 * w := by
  simp only [shrinkDims]
  have ha : 0 < w / h := div_pos hw hh
  have hnW_pos : 0 < min (w * 0.8) 800 := lt_min (by nlinarith) (by norm_num)
  have hnW_le : min (w * 0.8) 800 ≤ w * 0.8 := min_le_left _ _
  have hkey : min (w * 0.8) 800 / (w / h) ≤ 0.8 * h := by
    rw [div_div_eq_mul_div, div_le_iff₀ hw]
    nlinarith
  by_cases hcl : min (w * 0.8) 800 / (w / h) > 800
  · rw [if_pos hcl]
    have h800h : 800 < 0.8 * h := lt_of_lt_of_le hcl hkey
    have h1 : 800 * (w / h) < min (w * 0.8) 800 := (lt_div_iff₀ ha).mp hcl
    refine ⟨by positivity, by norm_num, by nlinarith, by nlinarith, ?_⟩
    field_simp
  · rw [if_neg hcl]
    refine ⟨hnW_pos, div_pos hnW_pos ha, by nlinarith, by nlinarith, ?_⟩
    rw [div_div_eq_mul_div, div_mul_cancel₀ _ (ne_of_gt hw)]

theorem shrinkDims_exact {w h : ℚ} (hw : 0 < w) (hh : 0 < h)
    (h1 : w * 0.8 ≤ 800) (h2 : h * 0.8 ≤ 800) :
    shrinkDims w h = (w * 0.8, h * 0.8) := by
  simp only [shrinkDims]
  have hmin : min (w * 0.8) 800 = w * 0.8 := min_eq_left h1
  have hdiv : w * 0.8 / (w / h) = h * 0.8 := by
    field_simp
    ring
  rw [hmin, hdiv, if_neg (by push_neg; linarith)]

theorem shrinkDims_clamp {w h : ℚ} (hw : 0 < w) (hh : 0 < h)
    (hbig : 800 < w * 0.8 ∨ 800 < h * 0.8) :
    max (shrinkDims w h).1 (shrinkDims w h).2 = 800 := by
  have hle := shrinkDims_le w h
  have h800 : (shrinkDims w h).1 = 800 ∨ (shrinkDims w h).2 = 800 := by
    simp only [shrinkDims]
    by_cases hcl : min (w * 0.8) 800 / (w / h) > 800
    · rw [if_pos hcl]
      right
      rfl
    · rw [if_neg hcl]
      by_cases hwb : 800 < w * 0.8
      · left
        exact min_eq_right (le_of_lt hwb)
      · exfalso
        push_neg at hwb
        have hmin : min (w * 0.8) 800 = w * 0.8 := min_eq_left hwb
        rw [hmin] at hcl
        have hdiv : w * 0.8 / (w / h) = h * 0.8 := by
          field_simp
          ring
        rw [hdiv] at hcl
        push_neg at hcl
        rcases hbig with hbw | hbh
        · linarith
        · linarith
  rcases h800 with h1 | h2
  · rw [h1]
    exact max_eq_left (h1 ▸ hle.2)
  · rw [h2]
    exact max_eq_right (h2 ▸ hle.1)

theorem initialDims_spec {maxD w h : ℚ} (hw : 0 < w) (hh : 0 < h) (hD : 0 < maxD) :
    0 < (initialDims maxD w h).1 ∧ 0 < (initialDims maxD w h).2 ∧
      (initialDims maxD w h).1 ≤ maxD ∧ (initialDims maxD w h).2 ≤ maxD ∧
      (initialDims maxD w h).1 * h = (initialDims maxD w h).2 * w ∧
      (maxD < max w h → max (initialDims maxD w h).1 (initialDims maxD w h).2 = maxD) ∧
      (¬ maxD < max w h → initialDims maxD w h = (w, h)) := by
  simp only [initialDims]
  by_cases hbig : w > maxD ∨ h > maxD
  · rw [if_pos hbig]
    by_cases hwh : w > h
    · rw [if_pos hwh]
      have hdiv : maxD / (w / h) = maxD * h / w := by rw [div_div_eq_mul_div]
      have hd2pos : 0 < maxD / (w / h) := div_pos hD (div_pos hw hh)
      have hd2le : maxD / (w / h) ≤ maxD := by
        rw [hdiv, div_le_iff₀ hw]
        nlinarith
      refine ⟨hD, hd2pos, le_refl _, hd2le, ?_, fun _ => max_eq_left hd2le, fun hc => ?_⟩
      · rw [hdiv, div_mul_cancel₀ _ (ne_of_gt hw)]
      · exfalso
        rcases hbig with h1 | h1
        · exact hc (lt_max_iff.mpr (Or.inl h1))
        · exact hc (lt_max_iff.mpr (Or.inr h1))
    · rw [if_neg hwh]
      push_neg at hwh
      have hd1pos : 0 < maxD * (w / h) := by positivity
      have hd1le : maxD * (w / h) ≤ maxD := by
        have h1 : w / h ≤ 1 := by
          rw [div_le_one hh]
          exact hwh
        nlinarith
      refine ⟨hd1pos, hD, hd1le, le_refl _, ?_, fun _ => max_eq_right hd1le, fun hc => ?_⟩
      · field_simp
      · exfalso
        rcases hbig with h1 | h1
        · exact hc (lt_max_iff.mpr (Or.inl h1))
        · exact hc (lt_max_iff.mpr (Or.inr h1))
  · rw [if_neg hbig]
    push_neg at hbig
    exact ⟨hw, hh, hbig.1, hbig.2, mul_comm w h, fun hc => absurd (lt_max_iff.mp hc)
      (by push_neg; exact ⟨hbig.1, hbig.2⟩), fun _ => rfl⟩

theorem compressF_ok_budget (c : Bool) (e : ℚ → ℚ → ℚ → Option ℕ) (m : ℕ) :
    ∀ (fuel : ℕ) (w h q : ℚ) (a : Attempt),
      compressImageF c e m fuel w h q = some (Except.ok a) →
      a.size ≤ m ∨ (a.width ≤ 800 ∧ a.height ≤ 800 ∧ a.quality ≤ 0.3) := by
  intro fuel
  induction fuel with
  | zero => intro w h q a hF; simp [compressImageF] at hF
  | succ fuel ih =>
    intro w h q a hF
    cases c with
    | false =>
      rw [compressF_surface] at hF
      simp at hF
    | true =>
      cases he : e w h q with
      | none =>
        rw [compressF_encNone e m fuel w h q he] at hF
        simp at hF
      | some s =>
        by_cases hs : s ≤ m
        · rw [compressF_accept e m fuel w h q s he hs] at hF
          simp only [Option.some.injEq, Except.ok.injEq] at hF
          subst hF
          exact Or.inl hs
        · by_cases hq : 0.3 < q
          · rw [compressF_quality e m fuel w h q s he hs hq] at hF
            exact ih w h (q - 0.1) a hF
          · by_cases hd : 800 < w ∨ 800 < h
            · rw [compressF_shrink e m fuel w h q s he hs hq hd] at hF
              exact ih _ _ _ a hF
            · rw [compressF_floor e m fuel w h q s he hs hq hd] at hF
              simp only [Option.some.injEq, Except.ok.injEq] at hF
              subst hF
              push_neg at hd
              exact Or.inr ⟨hd.1, hd.2, le_of_not_lt hq⟩

theorem compressF_ok_dims (c : Bool) (e : ℚ → ℚ → ℚ → Option ℕ) (m : ℕ) :
    ∀ (fuel : ℕ) (w h q : ℚ) (a : Attempt), 0 < w → 0 < h →
      compressImageF c e m fuel w h q = some (Except.ok a) →
      0 < a.width ∧ 0 < a.height ∧ a.width ≤ w ∧ a.height ≤ h ∧
        a.width * h = a.height * w := by
  intro fuel
  induction fuel with
  | zero => intro w h q a _ _ hF; simp [compressImageF] at hF
  | succ fuel ih =>
    intro w h q a hw hh hF
    cases c with
    | false =>
      rw [compressF_surface] at hF
      simp at hF
    | true =>
      cases he : e w h q with
      | none =>
        rw [compressF_encNone e m fuel w h q he] at hF
        simp at hF
      | some s =>
        by_cases hs : s ≤ m
        · rw [compressF_accept e m fuel w h q s he hs] at hF
          simp only [Option.some.injEq, Except.ok.injEq] at hF
          subst hF
          exact ⟨hw, hh, le_refl _, le_refl _, mul_comm w h⟩
        · by_cases hq : 0.3 < q
          · rw [compressF_quality e m fuel w h q s he hs hq] at hF
            exact ih w h (q - 0.1) a hw hh hF
          · by_cases hd : 800 < w ∨ 800 < h
            · rw [compressF_shrink e m fuel w h q s he hs hq hd] at hF
              obtain ⟨hp1, hp2, hle1, hle2, hcross⟩ := shrinkDims_spec hw hh
              obtain ⟨ha1, ha2, ha3, ha4, ha5⟩ := ih _ _ _ a hp1 hp2 hF
              refine ⟨ha1, ha2, le_trans ha3 hle1, le_trans ha4 hle2, ?_⟩
              apply mul_right_cancel₀ (ne_of_gt hp2)
              linear_combination h * ha5 + a.height * hcross
            · rw [compressF_floor e m fuel w h q s he hs hq hd] at hF
              simp only [Option.some.injEq, Except.ok.injEq] at hF
              subst hF
              exact ⟨hw, hh, le_refl _, le_refl _, mul_comm w h⟩

theorem compressF_error_kind (c : Bool) (e : ℚ → ℚ → ℚ → Option ℕ) (m : ℕ) :
    ∀ (fuel : ℕ) (w h q : ℚ) (err : SanitizeError),
      compressImageF c e m fuel w h q = some (Except.error err) →
      (c = false ∧ err = SanitizeError.surfaceError) ∨ err = SanitizeError.encodeError := by
  intro fuel
  induction fuel with
  | zero => intro w h q err hF; simp [compressImageF] at hF
  | succ fuel ih =>
    intro w h q err hF
    cases c with
    | false =>
      rw [compressF_surface] at hF
      simp only [Option.some.injEq, Except.error.injEq] at hF
      exact Or.inl ⟨rfl, hF.symm⟩
    | true =>
      cases he : e w h q with
      | none =>
        rw [compressF_encNone e m fuel w h q he] at hF
        simp only [Option.some.injEq, Except.error.injEq] at hF
        exact Or.inr hF.symm
      | some s =>
        by_cases hs : s ≤ m
        · rw [compressF_accept e m fuel w h q s he hs] at hF
          simp at hF
        · by_cases hq : 0.3 < q
          · rw [compressF_quality e m fuel w h q s he hs hq] at hF
            exact ih w h (q - 0.1) err hF
          · by_cases hd : 800 < w ∨ 800 < h
            · rw [compressF_shrink e m fuel w h q s he hs hq hd] at hF
              exact ih _ _ _ err hF
            · rw [compressF_floor e m fuel w h q s he hs hq hd] at hF
              simp at hF

theorem removeExifData_ok_shape (env : Env) (file : InputImage) (m : ℕ) (d : ℚ) (f : JSFile)
    (h : removeExifData env file m d = Except.ok f) :
    ∃ a : Attempt,
      compressImage env.ctxOk env.enc m (initialDims d (file.width : ℚ) (file.height : ℚ)).1
        (initialDims d (file.width : ℚ) (file.height : ℚ)).2 0.92 = Except.ok a ∧
      f = mkFile file.name a := by
  cases hr : env.readOk with
  | false => simp [removeExifData, hr] at h
  | true =>
    cases hd : env.decodeOk with
    | false => simp [removeExifData, hr, hd] at h
    | true =>
      unfold removeExifData at h
      rw [hr, if_neg (by decide : ¬ (true = false)), hd,
        if_neg (by decide : ¬ (true = false))] at h
      cases hc : compressImage env.ctxOk env.enc m
          (initialDims d (file.width : ℚ) (file.height : ℚ)).1
          (initialDims d (file.width : ℚ) (file.height : ℚ)).2 0.92 with
      | error err => rw [hc] at h; simp [Except.map] at h
      | ok a =>
        rw [hc] at h
        simp only [Except.map, Except.ok.injEq] at h
        exact ⟨a, rfl, h.symm⟩

theorem removeExifData_of_ok (env : Env) (file : InputImage) (m : ℕ) (d : ℚ) (a : Attempt)
    (hr : env.readOk = true) (hd : env.decodeOk = true)
    (hc : compressImage env.ctxOk env.enc m (initialDims d (file.width : ℚ) (file.height : ℚ)).1
      (initialDims d (file.width : ℚ) (file.height : ℚ)).2 0.92 = Except.ok a) :
    removeExifData env file m d = Except.ok (mkFile file.name a) := by
  unfold removeExifData
  rw [hr, if_neg (by decide : ¬ (true = false)), hd,
    if_neg (by decide : ¬ (true = false)), hc]
  rfl

theorem exceptMap_ok_spec {α β ε : Type} (f : α → Except ε β) :
    ∀ (l : List α) (bs : List β), exceptMap f l = Except.ok bs →
      bs.length = l.length ∧ ∀ (i : ℕ) (hi : i < l.length) (hb : i < bs.length),
        f (l.get ⟨i, hi⟩) = Except.ok (bs.get ⟨i, hb⟩) := by
  intro l
  induction l with
  | nil =>
    intro bs h
    simp only [exceptMap, Except.ok.injEq] at h
    subst h
    exact ⟨rfl, fun i hi => by simp at hi⟩
  | cons a l ih =>
    intro bs h
    simp only [exceptMap] at h
    cases hfa : f a with
    | error e => rw [hfa] at h; simp at h
    | ok b =>
      rw [hfa] at h
      cases hml : exceptMap f l with
      | error e => rw [hml] at h; simp at h
      | ok bs2 =>
        rw [hml] at h
        simp only [Except.ok.injEq] at h
        subst h
        obtain ⟨hlen, hget⟩ := ih bs2 hml
        constructor
        · simp [hlen]
        · intro i hi hb
          cases i with
          | zero => exact hfa
          | succ n =>
            simp only [List.length_cons] at hi hb
            exact hget n (by omega) (by omega)

theorem exceptMap_error_of_mem {α β ε : Type} (f : α → Except ε β) :
    ∀ (l : List α) (x : α), x ∈ l → (∃ e, f x = Except.error e) →
      ∃ e, exceptMap f l = Except.error e := by
  intro l
  induction l with
  | nil => intro x hx; simp at hx
  | cons a l ih =>
    intro x hx hfe
    cases hfa : f a with
    | error ea => exact ⟨ea, by simp [exceptMap, hfa]⟩
    | ok b =>
      rcases List.mem_cons.mp hx with rfl | hx2
      · obtain ⟨e, he⟩ := hfe
        rw [hfa] at he
        simp at he
      · obtain ⟨e2, he2⟩ := ih x hx2 hfe
        exact ⟨e2, by simp [exceptMap, hfa, he2]⟩

theorem exceptMap_first_error {α β ε : Type} (f : α → Except ε β) :
    ∀ (l : List α) (i : ℕ) (hi : i < l.length) (e : ε),
      f (l.get ⟨i, hi⟩) = Except.error e →
      (∀ (j : ℕ) (hj : j < l.length), j < i → ∃ b, f (l.get ⟨j, hj⟩) = Except.ok b) →
      exceptMap f l = Except.error e := by
  intro l
  induction l with
  | nil => intro i hi; simp at hi
  | cons a l ih =>
    intro i hi e hfe hearlier
    cases i with
    | zero =>
      have hfa : f a = Except.error e := hfe
      simp only [exceptMap, hfa]
    | succ n =>
      obtain ⟨b, hfb⟩ := hearlier 0 (by simp) (by omega)
      have hfb2 : f a = Except.ok b := hfb
      have htail : exceptMap f l = Except.error e := by
        simp only [List.length_cons] at hi
        refine ih n (by omega) e hfe ?_
        intro j hj hjn
        exact hearlier (j + 1) (by simp; omega) (by omega)
      simp only [exceptMap, hfb2, htail]

theorem removeExifData_allok (env : Env) (file : InputImage) (m : ℕ) (d : ℚ)
    (hr : env.readOk = true) (hd : env.decodeOk = true) :
    removeExifData env file m d =
      Except.map (mkFile file.name)
        (compressImage env.ctxOk env.enc m
          (initialDims d (file.width : ℚ) (file.height : ℚ)).1
          (initialDims d (file.width : ℚ) (file.height : ℚ)).2 0.92) := by
  unfold removeExifData
  rw [hr, if_neg (by decide : ¬ (true = false)), hd, if_neg (by decide : ¬ (true = false))]

theorem removeExifData_read (env : Env) (file : InputImage) (m : ℕ) (d : ℚ)
    (hr : env.readOk = false) :
    removeExifData env file m d = Except.error SanitizeError.readError := by
  unfold removeExifData
  rw [hr, if_pos rfl]

theorem removeExifData_decode (env : Env) (file : InputImage) (m : ℕ) (d : ℚ)
    (hr : env.readOk = true) (hd : env.decodeOk = false) :
    removeExifData env file m d = Except.error SanitizeError.decodeError := by
  unfold removeExifData
  rw [hr, if_neg (by decide : ¬ (true = false)), hd, if_pos rfl]

theorem removeExifData_surface (env : Env) (file : InputImage) (m : ℕ) (d : ℚ)
    (hr : env.readOk = true) (hd : env.decodeOk = true) (hc : env.ctxOk = false) :
    removeExifData env file m d = Except.error SanitizeError.surfaceError := by
  rw [removeExifData_allok env file m d hr hd, hc]
  have hF := compressF_surface env.enc m 0
    (initialDims d (file.width : ℚ) (file.height : ℚ)).1
    (initialDims d (file.width : ℚ) (file.height : ℚ)).2 0.92
  rw [compressImage_eq_of_F false env.enc m 1 _ _ _ _ hF]
  rfl

/-- C1: for every input that decodes successfully, the `File` returned by
the compressing `removeExifData` has byte size at most `maxSize`, unless
the search space is exhausted — the accepted attempt has width and height
at most `800` and its quality has reached the `0.3` floor (`quality ≤ 0.3`)
— in which case the current, possibly over-budget, attempt is returned. -/
theorem C1_budget_or_exhausted (env : Env) (file : InputImage) (m : ℕ) (d : ℚ) (f : JSFile)
    (h : removeExifData env file m d = Except.ok f) :
    ∃ a : Attempt,
      compressImage env.ctxOk env.enc m
        (initialDims d (file.width : ℚ) (file.height : ℚ)).1
        (initialDims d (file.width : ℚ) (file.height : ℚ)).2 0.92 = Except.ok a ∧
      f = mkFile file.name a ∧ f.size = a.size ∧
      (f.size ≤ m ∨ (a.width ≤ 800 ∧ a.height ≤ 800 ∧ a.quality ≤ 0.3)) := by
  obtain ⟨a, hc, hf⟩ := removeExifData_ok_shape env file m d f h
  have hF : compressImageF env.ctxOk env.enc m
      (compressMeasure (initialDims d (file.width : ℚ) (file.height : ℚ)).1
        (initialDims d (file.width : ℚ) (file.height : ℚ)).2 0.92)
      (initialDims d (file.width : ℚ) (file.height : ℚ)).1
      (initialDims d (file.width : ℚ) (file.height : ℚ)).2 0.92 = some (Except.ok a) := by
    rw [compressImageF_measure, hc]
  have hinv := compressF_ok_budget env.ctxOk env.enc m _ _ _ _ a hF
  have hsize : f.size = a.size := by rw [hf]; rfl
  refine ⟨a, hc, hf, hsize, ?_⟩
  rw [hsize]
  exact hinv

theorem C1_budget_or_exhausted_witness :
    (removeExifData ⟨true, true, true, fun _ _ _ => some 0⟩ ⟨"a.jpg", "image/jpeg", 10, 10⟩
        100 1920 = Except.ok ⟨"a.jpg", "image/jpeg", "image/jpeg", 0⟩) ∧
    ∃ a : Attempt,
      compressImage true (fun _ _ _ => some 0) 100
        (initialDims 1920 (((10 : ℕ) : ℚ)) (((10 : ℕ) : ℚ))).1
        (initialDims 1920 (((10 : ℕ) : ℚ)) (((10 : ℕ) : ℚ))).2 0.92 = Except.ok a ∧
      (⟨"a.jpg", "image/jpeg", "image/jpeg", 0⟩ : JSFile) = mkFile "a.jpg" a ∧
      (⟨"a.jpg", "image/jpeg", "image/jpeg", 0⟩ : JSFile).size = a.size ∧
      ((⟨"a.jpg", "image/jpeg", "image/jpeg", 0⟩ : JSFile).size ≤ 100 ∨
        (a.width ≤ 800 ∧ a.height ≤ 800 ∧ a.quality ≤ 0.3)) := by
  have hF := compressF_accept (fun _ _ _ => some 0) 100 0
    (initialDims 1920 (((10 : ℕ) : ℚ)) (((10 : ℕ) : ℚ))).1
    (initialDims 1920 (((10 : ℕ) : ℚ)) (((10 : ℕ) : ℚ))).2 0.92 0 rfl (by norm_num)
  have hc := compressImage_eq_of_F true (fun _ _ _ => some 0) 100 1 _ _ _ _ hF
  have hok := removeExifData_of_ok ⟨true, true, true, fun _ _ _ => some 0⟩
    ⟨"a.jpg", "image/jpeg", 10, 10⟩ 100 1920 ⟨_, _, 0.92, 0⟩ rfl rfl hc
  exact ⟨hok, C1_budget_or_exhausted _ _ 100 1920 _ hok⟩

/-- C5: for every starting state, the recursive quality/dimension search
terminates within `compressMeasure w h q` encoding attempts (one fuel unit
per attempt), whatever sizes the encoder produces, and the fueled run
already returns the value of the total search `compressImage`. -/
theorem C5_search_terminates_bounded (c : Bool) (e : ℚ → ℚ → ℚ → Option ℕ) (m : ℕ)
    (w h q : ℚ) :
    compressImageF c e m (compressMeasure w h q) w h q = some (compressImage c e m w h q) :=
  compressImageF_measure c e m w h q

/-- C7: if the first encoding attempt — at quality `0.92` and at
dimensions already within the `maxDimension` bound — produces a blob of
size at most `maxSize`, `removeExifData` returns that first attempt
(a single encoding attempt, i.e. fuel `1`, suffices) with no further
quality decrement or dimension shrink. -/
theorem C7_first_attempt_accepted (env : Env) (file : InputImage) (m : ℕ) (d : ℚ) (s : ℕ)
    (hr : env.readOk = true) (hd : env.decodeOk = true) (hc : env.ctxOk = true)
    (hw : ¬ ((file.width : ℚ) > d)) (hh : ¬ ((file.height : ℚ) > d))
    (he : env.enc (file.width : ℚ) (file.height : ℚ) 0.92 = some s) (hs : s ≤ m) :
    compressImageF true env.enc m 1 (file.width : ℚ) (file.height : ℚ) 0.92 =
      some (Except.ok ⟨(file.width : ℚ), (file.height : ℚ), 0.92, s⟩) ∧
    removeExifData env file m d =
      Except.ok (mkFile file.name ⟨(file.width : ℚ), (file.height : ℚ), 0.92, s⟩) := by
  have hini : initialDims d (file.width : ℚ) (file.height : ℚ) =
      ((file.width : ℚ), (file.height : ℚ)) := by
    unfold initialDims
    rw [if_neg (not_or.mpr ⟨hw, hh⟩)]
  have hF := compressF_accept env.enc m 0 (file.width : ℚ) (file.height : ℚ) 0.92 s he hs
  refine ⟨hF, ?_⟩
  apply removeExifData_of_ok env file m d _ hr hd
  rw [hini, hc]
  exact compressImage_eq_of_F true env.enc m 1 _ _ _ _ hF

theorem C7_first_attempt_accepted_witness :
    (compressImageF true (fun _ _ _ => some 5) 100 1 (((10 : ℕ) : ℚ)) (((10 : ℕ) : ℚ)) 0.92 =
      some (Except.ok ⟨(((10 : ℕ) : ℚ)), (((10 : ℕ) : ℚ)), 0.92, 5⟩)) ∧
    removeExifData ⟨true, true, true, fun _ _ _ => some 5⟩ ⟨"p.jpg", "image/jpeg", 10, 10⟩
      100 1920 =
      Except.ok (mkFile "p.jpg" ⟨(((10 : ℕ) : ℚ)), (((10 : ℕ) : ℚ)), 0.92, 5⟩) :=
  C7_first_attempt_accepted ⟨true, true, true, fun _ _ _ => some 5⟩
    ⟨"p.jpg", "image/jpeg", 10, 10⟩ 100 1920 5 rfl rfl rfl
    (by push_cast; norm_num) (by push_cast; norm_num) rfl (by norm_num)

/-- C8: the compressing `removeExifData` rejects with `readError` exactly
when the input bytes cannot be loaded, with `decodeError` exactly when the
bytes load but cannot be decoded as a raster image, with `surfaceError`
exactly when loading and decoding succeed but no 2d rendering surface is
available; and in every failure case no file is returned. -/
theorem C8_error_classification (env : Env) (file : InputImage) (m : ℕ) (d : ℚ) :
    (removeExifData env file m d = Except.error SanitizeError.readError ↔
      env.readOk = false) ∧
    (removeExifData env file m d = Except.error SanitizeError.decodeError ↔
      (env.readOk = true ∧ env.decodeOk = false)) ∧
    (removeExifData env file m d = Except.error SanitizeError.surfaceError ↔
      (env.readOk = true ∧ env.decodeOk = true ∧ env.ctxOk = false)) ∧
    (∀ err, removeExifData env file m d = Except.error err →
      ∀ f, ¬ removeExifData env file m d = Except.ok f) := by
  refine ⟨?_, ?_, ?_, fun err herr f hok => by rw [herr] at hok; simp at hok⟩ <;>
  · cases hr : env.readOk with
    | false => rw [removeExifData_read env file m d hr]; simp
    | true =>
      cases hd : env.decodeOk with
      | false => rw [removeExifData_decode env file m d hr hd]; simp
      | true =>
        cases hc : env.ctxOk with
        | false => rw [removeExifData_surface env file m d hr hd hc]; simp
        | true =>
          rw [removeExifData_allok env file m d hr hd]
          cases hcA : compressImage env.ctxOk env.enc m
              (initialDims d (file.width : ℚ) (file.height : ℚ)).1
              (initialDims d (file.width : ℚ) (file.height : ℚ)).2 0.92 with
          | ok a => simp [Except.map]
          | error err2 =>
            have hF : compressImageF env.ctxOk env.enc m
                (compressMeasure (initialDims d (file.width : ℚ) (file.height : ℚ)).1
                  (initialDims d (file.width : ℚ) (file.height : ℚ)).2 0.92)
                (initialDims d (file.width : ℚ) (file.height : ℚ)).1
                (initialDims d (file.width : ℚ) (file.height : ℚ)).2 0.92 =
                some (Except.error err2) := by
              rw [compressImageF_measure, hcA]
            have hkind := compressF_error_kind env.ctxOk env.enc m _ _ _ _ err2 hF
            rw [hc] at hkind
            rcases hkind with ⟨hfalse, _⟩ | henc2
            · simp at hfalse
            · subst henc2
              simp [Except.map]

theorem C8_error_classification_witness :
    removeExifData ⟨false, true, true, fun _ _ _ => some 0⟩ ⟨"a.jpg", "image/jpeg", 10, 10⟩
      100 1920 = Except.error SanitizeError.readError :=
  (C8_error_classification ⟨false, true, true, fun _ _ _ => some 0⟩
    ⟨"a.jpg", "image/jpeg", 10, 10⟩ 100 1920).1.mpr rfl

/-- C2 (counterexample): at a 900×900 attempt that exceeds the budget with
quality `0.3`, the code's shrink step produces 720×720 — the longer side
drops strictly below 800 in a single shrink step, contradicting the
claimed floor of 800 on the longer side. -/
theorem C2_shrink_counterexample :
    shrinkDims 900 900 = (720, 720) ∧
    compressImageF true (fun _ _ _ => some 1) 0 7 900 900 0.3 =
      some (Except.ok ⟨720, 720, 0.3, 1⟩) ∧
    max (720 : ℚ) 720 < 800 := by
  have hsd : shrinkDims 900 900 = (720, 720) := by
    rw [@shrinkDims_exact 900 900 (by norm_num) (by norm_num) (by norm_num) (by norm_num)]
    norm_num
  refine ⟨hsd, ?_, by norm_num⟩
  show compressImageF true (fun _ _ _ => some 1) 0 (6 + 1) 900 900 0.3 = _
  rw [compressF_shrink (fun _ _ _ => some 1) 0 6 900 900 0.3 1 rfl (by norm_num)
    (by norm_num) (by norm_num), hsd]
  show compressImageF true (fun _ _ _ => some 1) 0 (5 + 1) 720 720 0.7 = _
  rw [compressF_quality (fun _ _ _ => some 1) 0 5 720 720 0.7 1 rfl (by norm_num) (by norm_num),
    show (0.7 : ℚ) - 0.1 = 0.6 from by norm_num]
  show compressImageF true (fun _ _ _ => some 1) 0 (4 + 1) 720 720 0.6 = _
  rw [compressF_quality (fun _ _ _ => some 1) 0 4 720 720 0.6 1 rfl (by norm_num) (by norm_num),
    show (0.6 : ℚ) - 0.1 = 0.5 from by norm_num]
  show compressImageF true (fun _ _ _ => some 1) 0 (3 + 1) 720 720 0.5 = _
  rw [compressF_quality (fun _ _ _ => some 1) 0 3 720 720 0.5 1 rfl (by norm_num) (by norm_num),
    show (0.5 : ℚ) - 0.1 = 0.4 from by norm_num]
  show compressImageF true (fun _ _ _ => some 1) 0 (2 + 1) 720 720 0.4 = _
  rw [compressF_quality (fun _ _ _ => some 1) 0 2 720 720 0.4 1 rfl (by norm_num) (by norm_num),
    show (0.4 : ℚ) - 0.1 = 0.3 from by norm_num]
  show compressImageF true (fun _ _ _ => some 1) 0 (1 + 1) 720 720 0.3 = _
  rw [compressF_floor (fun _ _ _ => some 1) 0 1 720 720 0.3 1 rfl (by norm_num) (by norm_num)
    (by norm_num)]

/-- C2 (amended): whenever an encoding attempt exceeds `maxSize` with
quality at most `0.3` and width or height above `800`, the next attempt
resets quality to `0.7` and rescales with aspect ratio preserved; both
sides shrink by exactly 20% whenever that leaves both at most `800`, and
otherwise the result is clamped so that the longer side equals exactly
`800`; in every case both resulting sides are at most `800` (so the longer
side can fall strictly below 800 in a single step). -/
theorem C2_shrink_step_amended (e : ℚ → ℚ → ℚ → Option ℕ) (m fuel : ℕ) (w h q : ℚ) (s : ℕ)
    (hw : 0 < w) (hh : 0 < h)
    (he : e w h q = some s) (hs : ¬ s ≤ m) (hq : q ≤ 0.3) (hd : 800 < w ∨ 800 < h) :
    compressImageF true e m (fuel + 1) w h q =
      compressImageF true e m fuel (shrinkDims w h).1 (shrinkDims w h).2 0.7 ∧
    (shrinkDims w h).1 * h = (shrinkDims w h).2 * w ∧
    (shrinkDims w h).1 ≤ 800 ∧ (shrinkDims w h).2 ≤ 800 ∧
    (w * 0.8 ≤ 800 ∧ h * 0.8 ≤ 800 → shrinkDims w h = (w * 0.8, h * 0.8)) ∧
    ((800 < w * 0.8 ∨ 800 < h * 0.8) → max (shrinkDims w h).1 (shrinkDims w h).2 = 800) := by
  obtain ⟨_, _, _, _, hcross⟩ := shrinkDims_spec hw hh
  obtain ⟨hle1, hle2⟩ := shrinkDims_le w h
  exact ⟨compressF_shrink e m fuel w h q s he hs (not_lt.mpr hq) hd, hcross, hle1, hle2,
    fun hex => shrinkDims_exact hw hh hex.1 hex.2, fun hbig => shrinkDims_clamp hw hh hbig⟩

theorem C2_shrink_step_amended_witness :
    (compressImageF true (fun _ _ _ => some 1) 0 (0 + 1) 900 900 0.3 =
      compressImageF true (fun _ _ _ => some 1) 0 0 (shrinkDims 900 900).1
        (shrinkDims 900 900).2 0.7) ∧
    (shrinkDims 900 900).1 * 900 = (shrinkDims 900 900).2 * 900 ∧
    (shrinkDims 900 900).1 ≤ 800 ∧ (shrinkDims 900 900).2 ≤ 800 ∧
    ((900 : ℚ) * 0.8 ≤ 800 ∧ (900 : ℚ) * 0.8 ≤ 800 →
      shrinkDims 900 900 = ((900 : ℚ) * 0.8, (900 : ℚ) * 0.8)) ∧
    ((800 < (900 : ℚ) * 0.8 ∨ 800 < (900 : ℚ) * 0.8) →
      max (shrinkDims 900 900).1 (shrinkDims 900 900).2 = 800) :=
  C2_shrink_step_amended (fun _ _ _ => some 1) 0 0 900 900 0.3 1 (by norm_num) (by norm_num)
    rfl (by norm_num) (by norm_num) (by norm_num)

/-- C3: for a decoded input of positive dimensions, the initial target
dimensions equal the input dimensions when the longer side is within
`maxDimension`, and otherwise are scaled, aspect ratio preserved, so the
longer side equals `maxDimension`; and every successful output of the
search started at those dimensions has longer side at most `maxDimension`
and exactly the input's aspect ratio. -/
theorem C3_dims_and_aspect (maxD w0 h0 : ℚ) (hw : 0 < w0) (hh : 0 < h0) (hD : 0 < maxD) :
    (maxD < max w0 h0 →
      max (initialDims maxD w0 h0).1 (initialDims maxD w0 h0).2 = maxD ∧
      (initialDims maxD w0 h0).1 * h0 = (initialDims maxD w0 h0).2 * w0) ∧
    (¬ maxD < max w0 h0 → initialDims maxD w0 h0 = (w0, h0)) ∧
    (∀ (c : Bool) (e : ℚ → ℚ → ℚ → Option ℕ) (m : ℕ) (a : Attempt),
      compressImage c e m (initialDims maxD w0 h0).1 (initialDims maxD w0 h0).2 0.92 =
        Except.ok a →
      max a.width a.height ≤ maxD ∧ a.width / a.height = w0 / h0) := by
  obtain ⟨hp1, hp2, hle1, hle2, hcross, hmax, hkeep⟩ := initialDims_spec hw hh hD
  refine ⟨fun hbig => ⟨hmax hbig, hcross⟩, hkeep, ?_⟩
  intro c e m a hc
  have hF : compressImageF c e m
      (compressMeasure (initialDims maxD w0 h0).1 (initialDims maxD w0 h0).2 0.92)
      (initialDims maxD w0 h0).1 (initialDims maxD w0 h0).2 0.92 = some (Except.ok a) := by
    rw [compressImageF_measure, hc]
  obtain ⟨ha1, ha2, ha3, ha4, ha5⟩ := compressF_ok_dims c e m _ _ _ _ a hp1 hp2 hF
  constructor
  · exact max_le (le_trans ha3 hle1) (le_trans ha4 hle2)
  · rw [div_eq_div_iff (ne_of_gt ha2) (ne_of_gt hh)]
    apply mul_right_cancel₀ (ne_of_gt hp2)
    linear_combination h0 * ha5 + a.height * hcross

theorem C3_dims_and_aspect_witness :
    ((1920 : ℚ) < max 4000 3000 →
      max (initialDims 1920 4000 3000).1 (initialDims 1920 4000 3000).2 = 1920 ∧
      (initialDims 1920 4000 3000).1 * 3000 = (initialDims 1920 4000 3000).2 * 4000) ∧
    (¬ (1920 : ℚ) < max 4000 3000 → initialDims 1920 4000 3000 = (4000, 3000)) ∧
    (∀ (c : Bool) (e : ℚ → ℚ → ℚ → Option ℕ) (m : ℕ) (a : Attempt),
      compressImage c e m (initialDims 1920 4000 3000).1 (initialDims 1920 4000 3000).2 0.92 =
        Except.ok a →
      max a.width a.height ≤ 1920 ∧ a.width / a.height = 4000 / 3000) :=
  C3_dims_and_aspect 1920 4000 3000 (by norm_num) (by norm_num) (by norm_num)

/-- C6: the batch `removeExifDataFromFiles` returns per-item results in
input order, each item processed independently with the same `maxSize` and
`maxDimension`; any failing item makes the whole batch fail (no partial
list), and the first failing item's error is the batch's error. -/
theorem C6_batch_order_failfast (env : Env) (files : List InputImage) (m : ℕ) (d : ℚ) :
    (∀ outs, removeExifDataFromFiles env files m d = Except.ok outs →
      outs.length = files.length ∧
      ∀ (i : ℕ) (hi : i < files.length) (ho : i < outs.length),
        removeExifData env (files.get ⟨i, hi⟩) m d = Except.ok (outs.get ⟨i, ho⟩)) ∧
    (∀ file, file ∈ files → (∃ err, removeExifData env file m d = Except.error err) →
      (∃ err, removeExifDataFromFiles env files m d = Except.error err) ∧
      ∀ outs, ¬ removeExifDataFromFiles env files m d = Except.ok outs) ∧
    (∀ (i : ℕ) (hi : i < files.length) (err : SanitizeError),
      removeExifData env (files.get ⟨i, hi⟩) m d = Except.error err →
      (∀ (j : ℕ) (hj : j < files.length), j < i →
        ∃ g, removeExifData env (files.get ⟨j, hj⟩) m d = Except.ok g) →
      removeExifDataFromFiles env files m d = Except.error err) := by
  refine ⟨?_, ?_, ?_⟩
  · intro outs h
    exact exceptMap_ok_spec _ files outs h
  · intro file hmem hfail
    obtain ⟨err, hB⟩ := exceptMap_error_of_mem
      (fun file => removeExifData env file m d) files file hmem hfail
    exact ⟨⟨err, hB⟩, fun outs hok => by
      unfold removeExifDataFromFiles at hok
      rw [hB] at hok
      simp at hok⟩
  · intro i hi err herr hearlier
    exact exceptMap_first_error (fun file => removeExifData env file m d) files i hi err
      herr hearlier

theorem C6_batch_order_failfast_witness :
    removeExifDataFromFiles ⟨false, true, true, fun _ _ _ => some 0⟩
      [⟨"a.jpg", "image/jpeg", 10, 10⟩] 100 1920 = Except.error SanitizeError.readError :=
  (C6_batch_order_failfast ⟨false, true, true, fun _ _ _ => some 0⟩
      [⟨"a.jpg", "image/jpeg", 10, 10⟩] 100 1920).2.2 0 (by norm_num) SanitizeError.readError
    (removeExifData_read _ _ 100 1920 rfl) (fun j hj hj0 => absurd hj0 (by omega))

/-- C10: when every encoding at the current dimensions stays over budget,
the qualities attempted before the first dimension shrink are exactly
0.92, 0.82, 0.72, 0.62, 0.52, 0.42, 0.32, 0.22 (exact arithmetic): each
attempt with quality still above 0.3 decrements by 0.1, the attempt at
0.32 still satisfies the `quality > 0.3` guard and so is followed by an
encoding at 0.22 — strictly below the documented 0.3 floor — and only
after that 0.22 attempt is the dimension-shrink branch entered. -/
theorem C10_quality_ladder (e : ℚ → ℚ → ℚ → Option ℕ) (m : ℕ) (w h : ℚ)
    (henc : ∀ q : ℚ, ∃ s, e w h q = some s ∧ m < s) (hd : 800 < w ∨ 800 < h) (fuel : ℕ) :
    (compressImageF true e m (fuel + 1) w h 0.92 = compressImageF true e m fuel w h 0.82) ∧
    (compressImageF true e m (fuel + 1) w h 0.82 = compressImageF true e m fuel w h 0.72) ∧
    (compressImageF true e m (fuel + 1) w h 0.72 = compressImageF true e m fuel w h 0.62) ∧
    (compressImageF true e m (fuel + 1) w h 0.62 = compressImageF true e m fuel w h 0.52) ∧
    (compressImageF true e m (fuel + 1) w h 0.52 = compressImageF true e m fuel w h 0.42) ∧
    (compressImageF true e m (fuel + 1) w h 0.42 = compressImageF true e m fuel w h 0.32) ∧
    (compressImageF true e m (fuel + 1) w h 0.32 = compressImageF true e m fuel w h 0.22) ∧
    ((0.22 : ℚ) < 0.3) ∧
    (compressImageF true e m (fuel + 1) w h 0.22 =
      compressImageF true e m fuel (shrinkDims w h).1 (shrinkDims w h).2 0.7) := by
  obtain ⟨s1, he1, hm1⟩ := henc 0.92
  obtain ⟨s2, he2, hm2⟩ := henc 0.82
  obtain ⟨s3, he3, hm3⟩ := henc 0.72
  obtain ⟨s4, he4, hm4⟩ := henc 0.62
  obtain ⟨s5, he5, hm5⟩ := henc 0.52
  obtain ⟨s6, he6, hm6⟩ := henc 0.42
  obtain ⟨s7, he7, hm7⟩ := henc 0.32
  obtain ⟨s8, he8, hm8⟩ := henc 0.22
  refine ⟨?_, ?_, ?_, ?_, ?_, ?_, ?_, by norm_num, ?_⟩
  · rw [compressF_quality e m fuel w h 0.92 s1 he1 (by omega) (by norm_num),
      show (0.92 : ℚ) - 0.1 = 0.82 from by norm_num]
  · rw [compressF_quality e m fuel w h 0.82 s2 he2 (by omega) (by norm_num),
      show (0.82 : ℚ) - 0.1 = 0.72 from by norm_num]
  · rw [compressF_quality e m fuel w h 0.72 s3 he3 (by omega) (by norm_num),
      show (0.72 : ℚ) - 0.1 = 0.62 from by norm_num]
  · rw [compressF_quality e m fuel w h 0.62 s4 he4 (by omega) (by norm_num),
      show (0.62 : ℚ) - 0.1 = 0.52 from by norm_num]
  · rw [compressF_quality e m fuel w h 0.52 s5 he5 (by omega) (by norm_num),
      show (0.52 : ℚ) - 0.1 = 0.42 from by norm_num]
  · rw [compressF_quality e m fuel w h 0.42 s6 he6 (by omega) (by norm_num),
      show (0.42 : ℚ) - 0.1 = 0.32 from by norm_num]
  · rw [compressF_quality e m fuel w h 0.32 s7 he7 (by omega) (by norm_num),
      show (0.32 : ℚ) - 0.1 = 0.22 from by norm_num]
  · exact compressF_shrink e m fuel w h 0.22 s8 he8 (by omega) (by norm_num) hd

theorem C10_quality_ladder_witness :
    (compressImageF true (fun _ _ _ => some 1) 0 (0 + 1) 900 600 0.92 =
      compressImageF true (fun _ _ _ => some 1) 0 0 900 600 0.82) ∧
    (compressImageF true (fun _ _ _ => some 1) 0 (0 + 1) 900 600 0.82 =
      compressImageF true (fun _ _ _ => some 1) 0 0 900 600 0.72) ∧
    (compressImageF true (fun _ _ _ => some 1) 0 (0 + 1) 900 600 0.72 =
      compressImageF true (fun _ _ _ => some 1) 0 0 900 600 0.62) ∧
    (compressImageF true (fun _ _ _ => some 1) 0 (0 + 1) 900 600 0.62 =
      compressImageF true (fun _ _ _ => some 1) 0 0 900 600 0.52) ∧
    (compressImageF true (fun _ _ _ => some 1) 0 (0 + 1) 900 600 0.52 =
      compressImageF true (fun _ _ _ => some 1) 0 0 900 600 0.42) ∧
    (compressImageF true (fun _ _ _ => some 1) 0 (0 + 1) 900 600 0.42 =
      compressImageF true (fun _ _ _ => some 1) 0 0 900 600 0.32) ∧
    (compressImageF true (fun _ _ _ => some 1) 0 (0 + 1) 900 600 0.32 =
      compressImageF true (fun _ _ _ => some 1) 0 0 900 600 0.22) ∧
    ((0.22 : ℚ) < 0.3) ∧
    (compressImageF true (fun _ _ _ => some 1) 0 (0 + 1) 900 600 0.22 =
      compressImageF true (fun _ _ _ => some 1) 0 0 (shrinkDims 900 600).1
        (shrinkDims 900 600).2 0.7) :=
  C10_quality_ladder (fun _ _ _ => some 1) 0 900 600
    (fun _ => ⟨1, rfl, by norm_num⟩) (by norm_num) 0

/-- C4: for a 4000×4000 input whose every encoding exceeds the 4MB default
budget, `removeExifData` terminates and returns a file built from an
attempt with dimensions at most 800×800 (in fact exactly 800×800), final
quality exactly 0.3, and byte size exceeding the budget. -/
theorem C4_adversarial_4000 (env : Env) (file : InputImage)
    (hr : env.readOk = true) (hd : env.decodeOk = true) (hc : env.ctxOk = true)
    (hw : file.width = 4000) (hh : file.height = 4000)
    (henc : ∀ w h q : ℚ, ∃ s, env.enc w h q = some s ∧ 4 * 1024 * 1024 < s) :
    ∃ a : Attempt,
      removeExifData env file (4 * 1024 * 1024) 1920 = Except.ok (mkFile file.name a) ∧
      a.width ≤ 800 ∧ a.height ≤ 800 ∧ a.quality = 0.3 ∧ 4 * 1024 * 1024 < a.size := by
  obtain ⟨s13, hs13, hm13⟩ := henc 800 800 0.3
  have hini : initialDims 1920 ((4000 : ℕ) : ℚ) ((4000 : ℕ) : ℚ) = (1920, 1920) := by
    unfold initialDims
    rw [if_pos (Or.inl (by push_cast; norm_num)), if_neg (lt_irrefl _), Prod.mk.injEq]
    refine ⟨by push_cast; norm_num, rfl⟩
  have hsd : shrinkDims 1920 1920 = (800, 800) := by
    simp only [shrinkDims]
    rw [min_eq_right (by norm_num : (800 : ℚ) ≤ 1920 * 0.8)]
    norm_num
  have run : compressImageF true env.enc (4 * 1024 * 1024) 13 1920 1920 0.92 =
      some (Except.ok ⟨800, 800, 0.3, s13⟩) := by
    obtain ⟨s1, he1, hm1⟩ := henc 1920 1920 0.92
    obtain ⟨s2, he2, hm2⟩ := henc 1920 1920 0.82
    obtain ⟨s3, he3, hm3⟩ := henc 1920 1920 0.72
    obtain ⟨s4, he4, hm4⟩ := henc 1920 1920 0.62
    obtain ⟨s5, he5, hm5⟩ := henc 1920 1920 0.52
    obtain ⟨s6, he6, hm6⟩ := henc 1920 1920 0.42
    obtain ⟨s7, he7, hm7⟩ := henc 1920 1920 0.32
    obtain ⟨s8, he8, hm8⟩ := henc 1920 1920 0.22
    obtain ⟨s9, he9, hm9⟩ := henc 800 800 0.7
    obtain ⟨s10, he10, hm10⟩ := henc 800 800 0.6
    obtain ⟨s11, he11, hm11⟩ := henc 800 800 0.5
    obtain ⟨s12, he12, hm12⟩ := henc 800 800 0.4
    show compressImageF true env.enc (4 * 1024 * 1024) (12 + 1) 1920 1920 0.92 = _
    rw [compressF_quality env.enc _ 12 1920 1920 0.92 s1 he1 (by omega) (by norm_num),
      show (0.92 : ℚ) - 0.1 = 0.82 from by norm_num]
    show compressImageF true env.enc (4 * 1024 * 1024) (11 + 1) 1920 1920 0.82 = _
    rw [compressF_quality env.enc _ 11 1920 1920 0.82 s2 he2 (by omega) (by norm_num),
      show (0.82 : ℚ) - 0.1 = 0.72 from by norm_num]
    show compressImageF true env.enc (4 * 1024 * 1024) (10 + 1) 1920 1920 0.72 = _
    rw [compressF_quality env.enc _ 10 1920 1920 0.72 s3 he3 (by omega) (by norm_num),
      show (0.72 : ℚ) - 0.1 = 0.62 from by norm_num]
    show compressImageF true env.enc (4 * 1024 * 1024) (9 + 1) 1920 1920 0.62 = _
    rw [compressF_quality env.enc _ 9 1920 1920 0.62 s4 he4 (by omega) (by norm_num),
      show (0.62 : ℚ) - 0.1 = 0.52 from by norm_num]
    show compressImageF true env.enc (4 * 1024 * 1024) (8 + 1) 1920 1920 0.52 = _
    rw [compressF_quality env.enc _ 8 1920 1920 0.52 s5 he5 (by omega) (by norm_num),
      show (0.52 : ℚ) - 0.1 = 0.42 from by norm_num]
    show compressImageF true env.enc (4 * 1024 * 1024) (7 + 1) 1920 1920 0.42 = _
    rw [compressF_quality env.enc _ 7 1920 1920 0.42 s6 he6 (by omega) (by norm_num),
      show (0.42 : ℚ) - 0.1 = 0.32 from by norm_num]
    show compressImageF true env.enc (4 * 1024 * 1024) (6 + 1) 1920 1920 0.32 = _
    rw [compressF_quality env.enc _ 6 1920 1920 0.32 s7 he7 (by omega) (by norm_num),
      show (0.32 : ℚ) - 0.1 = 0.22 from by norm_num]
    show compressImageF true env.enc (4 * 1024 * 1024) (5 + 1) 1920 1920 0.22 = _
    rw [compressF_shrink env.enc _ 5 1920 1920 0.22 s8 he8 (by omega) (by norm_num)
      (by norm_num), hsd]
    show compressImageF true env.enc (4 * 1024 * 1024) (4 + 1) 800 800 0.7 = _
    rw [compressF_quality env.enc _ 4 800 800 0.7 s9 he9 (by omega) (by norm_num),
      show (0.7 : ℚ) - 0.1 = 0.6 from by norm_num]
    show compressImageF true env.enc (4 * 1024 * 1024) (3 + 1) 800 800 0.6 = _
    rw [compressF_quality env.enc _ 3 800 800 0.6 s10 he10 (by omega) (by norm_num),
      show (0.6 : ℚ) - 0.1 = 0.5 from by norm_num]
    show compressImageF true env.enc (4 * 1024 * 1024) (2 + 1) 800 800 0.5 = _
    rw [compressF_quality env.enc _ 2 800 800 0.5 s11 he11 (by omega) (by norm_num),
      show (0.5 : ℚ) - 0.1 = 0.4 from by norm_num]
    show compressImageF true env.enc (4 * 1024 * 1024) (1 + 1) 800 800 0.4 = _
    rw [compressF_quality env.enc _ 1 800 800 0.4 s12 he12 (by omega) (by norm_num),
      show (0.4 : ℚ) - 0.1 = 0.3 from by norm_num]
    show compressImageF true env.enc (4 * 1024 * 1024) (0 + 1) 800 800 0.3 = _
    rw [compressF_floor env.enc _ 0 800 800 0.3 s13 hs13 (by omega) (by norm_num)
      (by norm_num)]
  have hcomp := compressImage_eq_of_F true env.enc (4 * 1024 * 1024) 13 1920 1920 0.92 _ run
  refine ⟨⟨800, 800, 0.3, s13⟩, ?_, by norm_num, by norm_num, rfl, hm13⟩
  apply removeExifData_of_ok env file (4 * 1024 * 1024) 1920 _ hr hd
  rw [hw, hh, hini, hc]
  exact hcomp

theorem C4_adversarial_4000_witness :
    ∃ a : Attempt,
      removeExifData ⟨true, true, true, fun _ _ _ => some (4 * 1024 * 1024 + 1)⟩
        ⟨"big.jpg", "image/jpeg", 4000, 4000⟩ (4 * 1024 * 1024) 1920 =
        Except.ok (mkFile "big.jpg" a) ∧
      a.width ≤ 800 ∧ a.height ≤ 800 ∧ a.quality = 0.3 ∧ 4 * 1024 * 1024 < a.size :=
  C4_adversarial_4000 ⟨true, true, true, fun _ _ _ => some (4 * 1024 * 1024 + 1)⟩
    ⟨"big.jpg", "image/jpeg", 4000, 4000⟩ rfl rfl rfl rfl rfl
    (fun _ _ _ => ⟨4 * 1024 * 1024 + 1, rfl, by omega⟩)

theorem legacy_ok_shape (env : LegacyEnv) (file : InputImage) (q : ℚ) (f : JSFile)
    (h : removeExifDataLegacy env file q = Except.ok f) :
    ∃ s, env.enc (legacyEncodeType file.type) q = some s ∧
      f = ⟨file.name, legacyMimeType file.name, legacyEncodeType file.type, s⟩ := by
  unfold removeExifDataLegacy at h
  cases hr : env.readOk with
  | false => rw [hr] at h; simp at h
  | true =>
    rw [hr, if_neg (by decide : ¬ (true = false))] at h
    cases hd : env.decodeOk with
    | false => rw [hd] at h; simp at h
    | true =>
      rw [hd, if_neg (by decide : ¬ (true = false))] at h
      cases hc : env.ctxOk with
      | false => rw [hc] at h; simp at h
      | true =>
        rw [hc, if_neg (by decide : ¬ (true = false))] at h
        cases henc : env.enc (legacyEncodeType file.type) q with
        | none => rw [henc] at h; simp at h
        | some s =>
          rw [henc] at h
          exact ⟨s, rfl, (Except.ok.inj h).symm⟩

/-- C9 (counterexample): a GIF input (`a.gif`, declared type `image/gif`)
through the legacy variant yields a `File` declared `image/gif` whose
bytes were requested from the encoder as `image/jpeg` — the PNG/GIF type
is not preserved in the encoded bytes for GIF inputs. -/
theorem C9_gif_counterexample :
    removeExifDataLegacy ⟨true, true, true, fun _ _ => some 100⟩
      ⟨"a.gif", "image/gif", 10, 10⟩ 0.92 =
      Except.ok ⟨"a.gif", "image/gif", "image/jpeg", 100⟩ ∧
    ("image/jpeg" : String) ≠ "image/gif" := by
  exact ⟨by decide, by decide⟩

/-- C9 (amended): the compressing variant always declares and encodes
`image/jpeg` and keeps the original name.  The legacy variant keeps the
original name, declares the MIME type from the file extension (png/gif
preserved), but requests the encoded bytes as PNG only when the declared
input type starts with `image/png`, and as JPEG otherwise — so a PNG input
keeps its type in both the declaration and the bytes, while a GIF input is
declared `image/gif` with JPEG-encoded bytes. -/
theorem C9_output_types_amended :
    (∀ (env : Env) (file : InputImage) (m : ℕ) (d : ℚ) (f : JSFile),
      removeExifData env file m d = Except.ok f →
      f.type = "image/jpeg" ∧ f.bytesType = "image/jpeg" ∧ f.name = file.name) ∧
    (∀ (env : LegacyEnv) (file : InputImage) (q : ℚ) (f : JSFile),
      removeExifDataLegacy env file q = Except.ok f →
      f.name = file.name ∧ f.type = legacyMimeType file.name ∧
        f.bytesType = legacyEncodeType file.type) ∧
    (∀ (env : LegacyEnv) (file : InputImage) (q : ℚ) (f : JSFile),
      legacyMimeType file.name = "image/png" →
      List.isPrefixOf "image/png".data file.type.data = true →
      removeExifDataLegacy env file q = Except.ok f →
      f.type = "image/png" ∧ f.bytesType = "image/png") ∧
    (∀ (env : LegacyEnv) (file : InputImage) (q : ℚ) (f : JSFile),
      legacyMimeType file.name = "image/gif" →
      List.isPrefixOf "image/png".data file.type.data = false →
      removeExifDataLegacy env file q = Except.ok f →
      f.type = "image/gif" ∧ f.bytesType = "image/jpeg") := by
  have hmain : ∀ (env : LegacyEnv) (file : InputImage) (q : ℚ) (f : JSFile),
      removeExifDataLegacy env file q = Except.ok f →
      f.name = file.name ∧ f.type = legacyMimeType file.name ∧
        f.bytesType = legacyEncodeType file.type := by
    intro env file q f h
    obtain ⟨s, _, hf⟩ := legacy_ok_shape env file q f h
    subst hf
    exact ⟨rfl, rfl, rfl⟩
  refine ⟨?_, hmain, ?_, ?_⟩
  · intro env file m d f h
    obtain ⟨a, _, hf⟩ := removeExifData_ok_shape env file m d f h
    subst hf
    exact ⟨rfl, rfl, rfl⟩
  · intro env file q f hmime hpre h
    obtain ⟨_, ht, hb⟩ := hmain env file q f h
    refine ⟨by rw [ht, hmime], ?_⟩
    rw [hb]
    unfold legacyEncodeType
    rw [hpre, if_pos rfl]
  · intro env file q f hmime hpre h
    obtain ⟨_, ht, hb⟩ := hmain env file q f h
    refine ⟨by rw [ht, hmime], ?_⟩
    rw [hb]
    unfold legacyEncodeType
    rw [hpre, if_neg (by decide : ¬ (false = true))]

theorem C9_output_types_amended_witness :
    (⟨"a.gif", "image/gif", "image/jpeg", 100⟩ : JSFile).type = "image/gif" ∧
    (⟨"a.gif", "image/gif", "image/jpeg", 100⟩ : JSFile).bytesType = "image/jpeg" :=
  C9_output_types_amended.2.2.2 ⟨true, true, true, fun _ _ => some 100⟩
    ⟨"a.gif", "image/gif", 10, 10⟩ 0.92 ⟨"a.gif", "image/gif", "image/jpeg", 100⟩
    (by decide) (by decide) (by decide)
